import Mathlib

/-!
Shallow embedding of the Bybit demo-trade relay (src/main.py).

The development models the signal-to-order pipeline of
handle_bot_response (signal parsing, wallet extraction, position
sizing, order placement), and the OTP login flow (receive_otp,
telegram_login). Python floats are modelled as exact rationals,
Python strings as lists of characters, and the module-level mutable
globals as an explicit state record threaded through the functions.
-/

namespace Relay

/-- Whitespace characters recognised by Python str.strip() with no
argument (ASCII subset; the messages at hand contain no exotic
whitespace). -/
def isSpaceChar (c : Char) : Bool :=
  c == ' ' || c == '\t' || c == '\n' || c == '\r'

/-- Remove leading and trailing characters satisfying p, the way
Python str.strip(chars) does. -/
def stripWhile (p : Char → Bool) (cs : List Char) : List Char :=
  ((cs.dropWhile p).reverse.dropWhile p).reverse

/-- Python s.strip() on a list of characters. -/
def trimL (cs : List Char) : List Char := stripWhile isSpaceChar cs

/-- Python s.split(sep) for a one-character separator: splitting the
empty text yields one empty part, like Python. -/
def splitOnChar (sep : Char) (cs : List Char) : List (List Char) :=
  cs.foldr
    (fun c acc =>
      if c == sep then [] :: acc
      else
        match acc with
        | [] => [[c]]
        | a :: rest => (c :: a) :: rest)
    [[]]

/-- Python s.startswith(pat): does the second list start with the
first one? -/
def startsWithL : List Char → List Char → Bool
  | [], _ => true
  | _ :: _, [] => false
  | p :: ps, c :: cs => p == c && startsWithL ps cs

/-- Python str.replace: replace every non-overlapping occurrence,
scanning left to right; the fuel argument bounds the recursion by the
length of the scanned list. -/
def replaceFuel (pat repl : List Char) : Nat → List Char → List Char
  | 0, s => s
  | _ + 1, [] => []
  | fuel + 1, c :: cs =>
    if startsWithL pat (c :: cs) && !pat.isEmpty then
      repl ++ replaceFuel pat repl fuel ((c :: cs).drop pat.length)
    else
      c :: replaceFuel pat repl fuel cs

/-- Python s.replace(pat, repl). -/
def pyReplace (s pat repl : List Char) : List Char :=
  replaceFuel pat repl s.length s

/-- Numeric value of a list of decimal digit characters. -/
def natOfDigits (l : List Char) : Nat :=
  l.foldl (fun n c => n * 10 + (c.toNat - 48)) 0

/-- Attach a sign to a numerator. -/
def signedNum (neg : Bool) (n : Nat) : Int :=
  if neg then -(n : Int) else (n : Int)

/-- Helper for parseFloat, once the sign has been consumed. The value
of the literal is assembled with mkRat, so intDigits.fracDigits
denotes (intDigits * 10 ^ k + fracDigits) / 10 ^ k exactly. -/
def parseFloatCore (neg : Bool) (body : List Char) : Option ℚ :=
  let intPart := body.takeWhile Char.isDigit
  let rest := body.dropWhile Char.isDigit
  match rest with
  | [] =>
    if intPart.isEmpty then none
    else some (mkRat (signedNum neg (natOfDigits intPart)) 1)
  | '.' :: frac =>
    if frac.all Char.isDigit && !(intPart.isEmpty && frac.isEmpty) then
      some (mkRat (signedNum neg (natOfDigits intPart * 10 ^ frac.length + natOfDigits frac))
        (10 ^ frac.length))
    else none
  | _ => none

/-- Python float(s) restricted to plain decimal literals: an optional
sign, integer digits, an optional dot with fractional digits (at
least one digit overall). On any other text float() raises
ValueError, modelled as none. -/
def parseFloat : List Char → Option ℚ
  | '-' :: r => parseFloatCore true r
  | '+' :: r => parseFloatCore false r
  | cs => parseFloatCore false cs

/-- The four labelled lines recognised by handle_bot_response. -/
def symbolLabel : List Char := "Symbol:".toList

def priceLabel : List Char := "Price:".toList

def stopLossLabel : List Char := "Stop Loss:".toList

def takeProfitLabel : List Char := "Take Profit:".toList

/-- Accumulator for the four fields: the Python locals symbol, price,
stop_loss_price, take_profit_price all start as None (main.py:106). -/
structure RawFields where
  symbol : Option (List Char)
  price : Option ℚ
  stopLoss : Option ℚ
  takeProfit : Option ℚ
deriving DecidableEq

def initFields : RawFields := ⟨none, none, none, none⟩

/-- Value of a labelled part: part.replace(label, "").strip(). -/
def labelValue (label part : List Char) : List Char :=
  trimL (pyReplace part label [])

/-- One line of the message through the if/elif chain of
main.py:109-116. A failed float conversion raises ValueError there,
modelled as none. -/
def processPart (f : RawFields) (part : List Char) : Option RawFields :=
  if startsWithL symbolLabel part then
    some { f with symbol := some (labelValue symbolLabel part) }
  else if startsWithL priceLabel part then
    match parseFloat (labelValue priceLabel part) with
    | some v => some { f with price := some v }
    | none => none
  else if startsWithL stopLossLabel part then
    match parseFloat (labelValue stopLossLabel part) with
    | some v => some { f with stopLoss := some v }
    | none => none
  else if startsWithL takeProfitLabel part then
    match parseFloat (labelValue takeProfitLabel part) with
    | some v => some { f with takeProfit := some v }
    | none => none
  else
    some f

/-- The whole for loop of main.py:108-116. -/
def processParts : RawFields → List (List Char) → Option RawFields
  | f, [] => some f
  | f, p :: ps =>
    match processPart f p with
    | some f2 => processParts f2 ps
    | none => none

/-- The message split into parts: strip surrounding double quotes and
whitespace, then split on newlines (main.py:102 and 105). -/
def msgParts (raw : String) : List (List Char) :=
  splitOnChar '\n' (trimL (stripWhile (fun c => c == '"') raw.toList))

structure TradeSignal where
  symbol : String
  price : ℚ
  stopLoss : ℚ
  takeProfit : ℚ
deriving DecidableEq

/-- Signal extraction including the presence check
`all([symbol, price, stop_loss_price, take_profit_price])` of
main.py:118: Python None, 0.0 and the empty string are all falsy, so
a missing field, a zero numeric field and an empty symbol each reject
the whole message (no partial signal). -/
def parseSignal (raw : String) : Option TradeSignal :=
  match processParts initFields (msgParts raw) with
  | none => none
  | some f =>
    match f.symbol, f.price, f.stopLoss, f.takeProfit with
    | some s, some p, some sl, some tp =>
      if !s.isEmpty && decide (p ≠ 0) && decide (sl ≠ 0) && decide (tp ≠ 0) then
        some ⟨⟨s⟩, p, sl, tp⟩
      else none
    | _, _, _, _ => none

/-- One coin entry of the wallet response. The equity and
walletBalance fields model usdt_data.get("equity", 0) and
usdt_data.get("walletBalance", 0): a missing key defaults to 0. -/
structure CoinRecord where
  coin : String
  equity : Option ℚ
  walletBalance : Option ℚ
deriving DecidableEq

/-- The "coin" field of one account entry of the wallet listing: the
exchange may send a single object, a list of objects, or nothing
usable (absent), and the scan of main.py:135-146 branches on the
shape with isinstance. -/
inductive CoinField where
  | single (c : CoinRecord)
  | list (cs : List CoinRecord)
  | absent
deriving DecidableEq

structure WalletAccount where
  coin : CoinField
deriving DecidableEq

structure AccountSnapshot where
  equity : ℚ
  walletBalance : ℚ
deriving DecidableEq

/-- Scan of one coin list for the USDT entry (inner loop of
main.py:138-141). -/
def findUsdtInList : List CoinRecord → Option CoinRecord
  | [] => none
  | c :: cs => if c.coin = "USDT" then some c else findUsdtInList cs

/-- Scan of the account list for the USDT entry (loop of
main.py:135-146), handling both coin-field shapes. -/
def findUsdt : List WalletAccount → Option CoinRecord
  | [] => none
  | a :: rest =>
    match a.coin with
    | .list cs =>
      match findUsdtInList cs with
      | some c => some c
      | none => findUsdt rest
    | .single c => if c.coin = "USDT" then some c else findUsdt rest
    | .absent => findUsdt rest

/-- Failure taxonomy of the per-message pipeline. unexpected covers
exceptions reaching the outer catch-all of handle_bot_response that
are none of the named per-signal failures. -/
inductive PipelineError where
  | malformedSignal
  | unknownSymbol (symbol : String)
  | walletParseError
  | insufficientBalance
  | orderRejected (msg : String)
  | unexpected (msg : String)
deriving DecidableEq

/-- Wallet-balance extraction (main.py:129-152): an empty account
list and a missing USDT entry are per-signal hard failures (the
raised "Failed to parse wallet balance"). -/
def extractSnapshot (accounts : List WalletAccount) : Except PipelineError AccountSnapshot :=
  if accounts.isEmpty then .error .walletParseError
  else
    match findUsdt accounts with
    | none => .error .walletParseError
    | some c => .ok ⟨c.equity.getD 0, c.walletBalance.getD 0⟩

/-- Position sizing (main.py:159-160):
max_qty = wallet_balance / price, then
math.floor(max_qty / step_size) * step_size. -/
def max_qty (wallet_balance price step_size : ℚ) : ℚ :=
  ((⌊wallet_balance / price / step_size⌋ : ℤ) : ℚ) * step_size

structure OrderResponse where
  retCode : ℤ
  retMsg : String
  orderId : String
  time : ℕ
deriving DecidableEq

/-- How a get_step_size round trip can fail: the symbol is not in the
instrument list (the raised ValueError of main.py:75), or the request
itself raises. -/
inductive StepSizeFailure where
  | symbolNotFound
  | transport (msg : String)
deriving DecidableEq

instance {ε α : Type} [DecidableEq ε] [DecidableEq α] : DecidableEq (Except ε α) := fun a b =>
  match a, b with
  | .ok x, .ok y =>
    if h : x = y then isTrue (by rw [h]) else isFalse (by intro hc; cases hc; exact h rfl)
  | .error x, .error y =>
    if h : x = y then isTrue (by rw [h]) else isFalse (by intro hc; cases hc; exact h rfl)
  | .ok _, .error _ => isFalse (by intro hc; cases hc)
  | .error _, .ok _ => isFalse (by intro hc; cases hc)

/-- The exchange answers for one message: the three round trips the
handler can make, each producing either a value or a raised
exception. -/
structure Env where
  stepSizeResult : Except StepSizeFailure ℚ
  walletResult : Except String (List WalletAccount)
  orderResult : Except String OrderResponse
deriving DecidableEq

inductive ExchangeCall where
  | getStepSize (symbol : String)
  | getWalletBalance
  | placeOrder (symbol : String) (qty price stopLoss takeProfit : ℚ)
deriving DecidableEq

def isPlaceOrderCall : ExchangeCall → Bool
  | .placeOrder _ _ _ _ _ => true
  | _ => false

def placeOrderCount (calls : List ExchangeCall) : ℕ :=
  calls.countP isPlaceOrderCall

/-- The data shown by format_trade_details (main.py:80-98). -/
structure TradeReport where
  symbol : String
  price : ℚ
  stopLoss : ℚ
  takeProfit : ℚ
  qty : ℚ
  orderId : String
  retMsg : String
  time : ℕ
  equity : ℚ
  walletBalance : ℚ
deriving DecidableEq

inductive Outcome where
  | report (t : TradeReport)
  | failed (e : PipelineError)
deriving DecidableEq

/-- The trade report assembled by format_trade_details. -/
def format_trade_details (sig : TradeSignal) (qty : ℚ) (resp : OrderResponse)
    (snap : AccountSnapshot) : TradeReport :=
  ⟨sig.symbol, sig.price, sig.stopLoss, sig.takeProfit, qty,
    resp.orderId, resp.retMsg, resp.time, snap.equity, snap.walletBalance⟩

/-- The per-message handler (main.py:100-200). The whole Python body
sits inside try/except, so the function is total: every failure is a
logged Outcome value, and the second component collects the exchange
calls actually issued, in order. -/
def handle_bot_response (env : Env) (raw : String) : Outcome × List ExchangeCall :=
  match parseSignal raw with
  | none => (.failed .malformedSignal, [])
  | some sig =>
    match env.stepSizeResult with
    | .error .symbolNotFound => (.failed (.unknownSymbol sig.symbol), [.getStepSize sig.symbol])
    | .error (.transport m) => (.failed (.unexpected m), [.getStepSize sig.symbol])
    | .ok step =>
      match env.walletResult with
      | .error m => (.failed (.unexpected m), [.getStepSize sig.symbol, .getWalletBalance])
      | .ok accounts =>
        match extractSnapshot accounts with
        | .error e => (.failed e, [.getStepSize sig.symbol, .getWalletBalance])
        | .ok snap =>
          let qty := max_qty snap.walletBalance sig.price step
          if 0 < qty then
            let calls := [ExchangeCall.getStepSize sig.symbol, .getWalletBalance,
              .placeOrder sig.symbol qty sig.price sig.stopLoss sig.takeProfit]
            match env.orderResult with
            | .error m => (.failed (.orderRejected m), calls)
            | .ok resp =>
              if resp.retCode = 0 then
                (.report (format_trade_details sig qty resp snap), calls)
              else
                (.failed (.orderRejected resp.retMsg), calls)
          else
            (.failed .insufficientBalance, [.getStepSize sig.symbol, .getWalletBalance])

/-- The listener dispatch (bot_message_handler, main.py:202-205): one
handler run per inbound message, in arrival order; handler runs share
no state. -/
def runListener (inputs : List (Env × String)) : List (Outcome × List ExchangeCall) :=
  inputs.map fun pr => handle_bot_response pr.1 pr.2

/-- The five AuthSession states of the specification. -/
inductive AuthPhase where
  | unauthenticated
  | codeRequested
  | awaitingOtp
  | authenticated
  | permanentlyFailed
deriving DecidableEq

/-- The module-level mutable globals (main.py:61-63) together with
the abstract auth phase. The phase is not a Python variable: it names
where the login coroutine currently stands (the AuthState of the
specification), and receive_otp never reads it. -/
structure ProcState where
  otp_received : Option String
  login_event : Bool
  otp_request_sent : Bool
  phase : AuthPhase
deriving DecidableEq

def initState : ProcState := ⟨none, false, false, .unauthenticated⟩

/-- Body of one POST /otp request: no JSON at all (or a falsy one),
JSON without an otp key, or JSON carrying an otp string. -/
inductive RequestBody where
  | noJson
  | jsonWithoutOtp
  | jsonWithOtp (v : String)
deriving DecidableEq

inductive OtpHttpResponse where
  | accepted (otp : String)
  | badRequest
deriving DecidableEq

/-- The /otp endpoint (receive_otp, main.py:212-232). It checks only
the request body: any body carrying an otp key is stored in the
mailbox and login_event is set, whatever the auth phase. -/
def receive_otp (st : ProcState) (body : RequestBody) : ProcState × OtpHttpResponse :=
  match body with
  | .noJson => (st, .badRequest)
  | .jsonWithoutOtp => (st, .badRequest)
  | .jsonWithOtp v =>
    ({ st with otp_received := some v, login_event := true }, .accepted v)

inductive SendCodeResult where
  | success
  | floodWait
  | otherError
deriving DecidableEq

inductive SignInResult where
  | success
  | invalidCode
  | passwordNeeded
  | otherError
deriving DecidableEq

/-- Result of one telegram_login run: the Python function returns
True or False; blocked models the run whose awaited login_event is
never set, so the await never returns. -/
inductive LoginResult where
  | succeeded
  | failed (msg : String)
  | blocked
deriving DecidableEq

/-- Telegram round trips issued by a login run. A sendCodeRequest
entry records one call of client.send_code_request together with
whether that call succeeded (a flood-wait or other error still means
the request was issued). -/
inductive TgCall where
  | sendCodeRequest (succeeded : Bool)
  | signIn (code : String)
deriving DecidableEq

/-- External outcomes one telegram_login run can observe, plus the
/otp requests served while the run waits on login_event. -/
structure LoginEnv where
  connectError : Bool
  isAuthorized : Bool
  sendCodeResult : SendCodeResult
  signInResult : SignInResult
  waitDeliveries : List RequestBody
deriving DecidableEq

/-- The /otp requests served while a login run is blocked on
login_event, applied to the shared globals in order. -/
def processDeliveries (st : ProcState) (ds : List RequestBody) : ProcState :=
  ds.foldl (fun s d => (receive_otp s d).1) st

/-- Lines 269-296 of telegram_login: the branch taken once the wait
on login_event has returned. `if otp_received:` treats None and the
empty string alike as missing; on every sign-in failure the pending
OTP is reset and login_event cleared. -/
def loginAfterWait (st : ProcState) (env : LoginEnv) : ProcState × LoginResult × List TgCall :=
  match st.otp_received with
  | some code =>
    if code = "" then
      ({ st with phase := .permanentlyFailed }, .failed "OTP not received", [])
    else
      match env.signInResult with
      | .success => ({ st with phase := .authenticated }, .succeeded, [.signIn code])
      | .invalidCode =>
        ({ st with otp_received := none, login_event := false, phase := .permanentlyFailed },
          .failed "Invalid OTP provided", [.signIn code])
      | .passwordNeeded =>
        ({ st with otp_received := none, login_event := false, phase := .permanentlyFailed },
          .failed "Two-factor authentication is enabled", [.signIn code])
      | .otherError =>
        ({ st with otp_received := none, login_event := false, phase := .permanentlyFailed },
          .failed "Unexpected error during login", [.signIn code])
  | none => ({ st with phase := .permanentlyFailed }, .failed "OTP not received", [])

/-- One run of telegram_login (main.py:239-304) as explicit state
passing over the shared globals. The code-request attempt happens
only when the client is not authorized and otp_request_sent is still
false; the flag is set only after the request call returned
successfully. -/
def telegram_login (st0 : ProcState) (env : LoginEnv) : ProcState × LoginResult × List TgCall :=
  if env.connectError then
    ({ st0 with phase := .permanentlyFailed }, .failed "Unexpected error during Telegram login", [])
  else if env.isAuthorized then
    ({ st0 with phase := .authenticated }, .succeeded, [])
  else if st0.otp_request_sent then
    let stW := processDeliveries { st0 with phase := .awaitingOtp } env.waitDeliveries
    if stW.login_event then loginAfterWait stW env
    else (stW, .blocked, [])
  else
    match env.sendCodeResult with
    | .floodWait =>
      ({ st0 with phase := .permanentlyFailed }, .failed "Too many requests",
        [.sendCodeRequest false])
    | .otherError =>
      ({ st0 with phase := .permanentlyFailed }, .failed "Error sending OTP request",
        [.sendCodeRequest false])
    | .success =>
      let st1 : ProcState := { st0 with otp_request_sent := true, phase := .codeRequested }
      let stW := processDeliveries { st1 with phase := .awaitingOtp } env.waitDeliveries
      if stW.login_event then
        let r := loginAfterWait stW env
        (r.1, r.2.1, .sendCodeRequest true :: r.2.2)
      else (stW, .blocked, [.sendCodeRequest true])

/-- Repeated invocations of telegram_login against the shared globals
with the accumulated trace of Telegram calls (the actual program
performs exactly one run, from main). -/
def loginRuns : ProcState → List LoginEnv → ProcState × List TgCall
  | st, [] => (st, [])
  | st, e :: es =>
    let r := telegram_login st e
    let rest := loginRuns r.1 es
    (rest.1, r.2.2 ++ rest.2)

def isSendCall : TgCall → Bool
  | .sendCodeRequest _ => true
  | .signIn _ => false

def isSuccessfulSendCall : TgCall → Bool
  | .sendCodeRequest ok => ok
  | .signIn _ => false

def isSignInCall : TgCall → Bool
  | .sendCodeRequest _ => false
  | .signIn _ => true

def sendCount (calls : List TgCall) : ℕ := calls.countP isSendCall

def succSendCount (calls : List TgCall) : ℕ := calls.countP isSuccessfulSendCall

def signInCount (calls : List TgCall) : ℕ := calls.countP isSignInCall

/-- A line whose float conversion raises in the if/elif chain: it
carries one of the three numeric labels and its value is not a
decimal literal. Mirrors the branch order of processPart, so a line
matching an earlier label is never tested against a later one. -/
def failingPart (p : List Char) : Bool :=
  if startsWithL symbolLabel p then false
  else if startsWithL priceLabel p then (parseFloat (labelValue priceLabel p)).isNone
  else if startsWithL stopLossLabel p then (parseFloat (labelValue stopLossLabel p)).isNone
  else if startsWithL takeProfitLabel p then (parseFloat (labelValue takeProfitLabel p)).isNone
  else false

/-- Does some line of the message carry the given label? -/
def hasLabel (parts : List (List Char)) (label : List Char) : Bool :=
  parts.any fun p => startsWithL label p

/-- The malformed inputs of claim C2: one of the four labelled lines
is missing, or some numeric line fails to parse as a decimal. -/
def malformedInput (raw : String) : Bool :=
  !hasLabel (msgParts raw) symbolLabel || !hasLabel (msgParts raw) priceLabel ||
    !hasLabel (msgParts raw) stopLossLabel || !hasLabel (msgParts raw) takeProfitLabel ||
    (msgParts raw).any failingPart

/-- Re-represent a single-object coin field as a one-element list of
objects, leaving every other shape unchanged. -/
def listifyAccount (a : WalletAccount) : WalletAccount :=
  match a.coin with
  | .single c => ⟨.list [c]⟩
  | x => ⟨x⟩

/-- Does the wallet response contain a USDT entry, in either of the
two coin-field representations? -/
def containsUsdt (accounts : List WalletAccount) : Bool :=
  accounts.any fun a =>
    match a.coin with
    | .single c => c.coin = "USDT"
    | .list cs => cs.any fun c => c.coin = "USDT"
    | .absent => false

/-! ## Claim C1: position-sizing arithmetic -/

/-- Claim C1, counterexample: the claim quantifies over every
walletBalance with stepSize > 0 and price > 0 and asserts the
computed quantity is non-negative, but at walletBalance = -1,
price = 1, stepSize = 1 the code computes quantity -1. -/
theorem c1_counterexample : (0 : ℚ) < 1 ∧ (0 : ℚ) < 1 ∧ max_qty (-1) 1 1 < 0 := by
  refine ⟨one_pos, one_pos, ?_⟩
  have h : (-1 : ℚ) / 1 / 1 = ((-1 : ℤ) : ℚ) := by norm_num
  rw [max_qty, h, Int.floor_intCast]
  norm_num

/-- Claim C1 (amended with walletBalance >= 0): for every
non-negative walletBalance and positive price and stepSize, the
quantity equals floor((walletBalance / price) / stepSize) * stepSize,
is a non-negative integer multiple of stepSize, and never
over-allocates: qty * price <= walletBalance. -/
theorem c1_sizing (wallet_balance price step_size : ℚ)
    (hstep : 0 < step_size) (hprice : 0 < price) (hwb : 0 ≤ wallet_balance) :
    max_qty wallet_balance price step_size =
      ((⌊wallet_balance / price / step_size⌋ : ℤ) : ℚ) * step_size ∧
    0 ≤ max_qty wallet_balance price step_size ∧
    (∃ n : ℤ, max_qty wallet_balance price step_size = (n : ℚ) * step_size) ∧
    max_qty wallet_balance price step_size * price ≤ wallet_balance := by
  have hx : 0 ≤ wallet_balance / price / step_size :=
    div_nonneg (div_nonneg hwb hprice.le) hstep.le
  have hfloor : (0 : ℤ) ≤ ⌊wallet_balance / price / step_size⌋ := Int.floor_nonneg.mpr hx
  have hfloorQ : (0 : ℚ) ≤ ((⌊wallet_balance / price / step_size⌋ : ℤ) : ℚ) := by
    exact_mod_cast hfloor
  refine ⟨rfl, mul_nonneg hfloorQ hstep.le, ⟨⌊wallet_balance / price / step_size⌋, rfl⟩, ?_⟩
  have h1 : ((⌊wallet_balance / price / step_size⌋ : ℤ) : ℚ) ≤
      wallet_balance / price / step_size := Int.floor_le _
  have h2 : max_qty wallet_balance price step_size ≤
      wallet_balance / price / step_size * step_size :=
    mul_le_mul_of_nonneg_right h1 hstep.le
  have h3 : wallet_balance / price / step_size * step_size = wallet_balance / price :=
    div_mul_cancel₀ _ (ne_of_gt hstep)
  rw [h3] at h2
  exact (le_div_iff₀ hprice).mp h2

/-- Witness for c1_sizing at the end-to-end scenario of the spec:
wallet 1000 USDT, price 50000, step size 0.001. -/
theorem c1_sizing_witness :
    (0 : ℚ) < mkRat 1 1000 ∧ (0 : ℚ) < 50000 ∧ (0 : ℚ) ≤ 1000 ∧
    (max_qty 1000 50000 (mkRat 1 1000) =
      ((⌊(1000 : ℚ) / 50000 / mkRat 1 1000⌋ : ℤ) : ℚ) * mkRat 1 1000 ∧
    0 ≤ max_qty 1000 50000 (mkRat 1 1000) ∧
    (∃ n : ℤ, max_qty 1000 50000 (mkRat 1 1000) = (n : ℚ) * mkRat 1 1000) ∧
    max_qty 1000 50000 (mkRat 1 1000) * 50000 ≤ 1000) :=
  ⟨by decide, by norm_num, by norm_num,
    c1_sizing 1000 50000 (mkRat 1 1000) (by decide) (by norm_num) (by norm_num)⟩

/-! ## Claim C4: InsufficientBalance path -/

/-- Claim C4: whenever the computed quantity is at most 0 — in
particular whenever walletBalance < price * stepSize — the handler
reports InsufficientBalance as a normal outcome (a returned value,
not an exception), drops the message, and never issues a
place-order call. -/
theorem c4_insufficient_balance :
    (∀ (env : Env) (raw : String) (sig : TradeSignal) (step : ℚ)
      (accounts : List WalletAccount) (snap : AccountSnapshot),
      parseSignal raw = some sig →
      env.stepSizeResult = .ok step →
      env.walletResult = .ok accounts →
      extractSnapshot accounts = .ok snap →
      max_qty snap.walletBalance sig.price step ≤ 0 →
      handle_bot_response env raw =
        (.failed .insufficientBalance, [.getStepSize sig.symbol, .getWalletBalance])) ∧
    (∀ wb price step : ℚ, 0 < price → 0 < step → wb < price * step →
      max_qty wb price step ≤ 0) := by
  constructor
  · intro env raw sig step accounts snap hparse hstep hwallet hsnap hq
    simp only [handle_bot_response, hparse, hstep, hwallet, hsnap]
    rw [if_neg (not_lt.mpr hq)]
  · intro wb price step hprice hstep hlt
    have h1 : wb / price < step := by
      rw [div_lt_iff₀ hprice]
      rw [mul_comm] at hlt
      exact hlt
    have h2 : wb / price / step < 1 := (div_lt_one hstep).mpr h1
    have h3 : ⌊wb / price / step⌋ < 1 := by
      have := Int.floor_lt.mpr (by exact_mod_cast h2 : wb / price / step < ((1 : ℤ) : ℚ))
      exact this
    have h4 : (⌊wb / price / step⌋ : ℤ) ≤ 0 := by omega
    have h5 : ((⌊wb / price / step⌋ : ℤ) : ℚ) ≤ 0 := by exact_mod_cast h4
    calc ((⌊wb / price / step⌋ : ℤ) : ℚ) * step ≤ 0 * step :=
          mul_le_mul_of_nonneg_right h5 hstep.le
      _ = 0 := zero_mul step

/-- Witness for c4_insufficient_balance: scenario 2 of the spec
(wallet 10 USDT, price 50000, step 0.001: quantity rounds to 0, no
order call), plus a direct instance of the arithmetic conjunct. -/
theorem c4_insufficient_balance_witness :
    parseSignal "Symbol: BTCUSDT\nPrice: 50000\nStop Loss: 49000\nTake Profit: 52000" =
      some ⟨"BTCUSDT", 50000, 49000, 52000⟩ ∧
    (Env.mk (.ok (mkRat 1 1000)) (.ok [⟨.list [⟨"USDT", some 10, some 10⟩]⟩])
        (.ok ⟨0, "OK", "id1", 123⟩)).stepSizeResult = .ok (mkRat 1 1000) ∧
    extractSnapshot [⟨.list [⟨"USDT", some 10, some 10⟩]⟩] = .ok ⟨10, 10⟩ ∧
    (10 : ℚ) < 50000 * mkRat 1 1000 ∧
    max_qty 10 50000 (mkRat 1 1000) ≤ 0 ∧
    handle_bot_response
        (Env.mk (.ok (mkRat 1 1000)) (.ok [⟨.list [⟨"USDT", some 10, some 10⟩]⟩])
          (.ok ⟨0, "OK", "id1", 123⟩))
        "Symbol: BTCUSDT\nPrice: 50000\nStop Loss: 49000\nTake Profit: 52000" =
      (.failed .insufficientBalance, [.getStepSize "BTCUSDT", .getWalletBalance]) := by
  have hlt : (10 : ℚ) < 50000 * mkRat 1 1000 := by
    rw [Rat.mkRat_eq_div]
    norm_num
  have hq : max_qty 10 50000 (mkRat 1 1000) ≤ 0 :=
    c4_insufficient_balance.2 10 50000 (mkRat 1 1000) (by norm_num) (by decide) hlt
  exact ⟨by decide, rfl, by decide, hlt, hq,
    c4_insufficient_balance.1 _ _ ⟨"BTCUSDT", 50000, 49000, 52000⟩ (mkRat 1 1000)
      [⟨.list [⟨"USDT", some 10, some 10⟩]⟩] ⟨10, 10⟩ (by decide) rfl rfl (by decide) hq⟩

/-! ## Claim C5: order placement outcome -/

/-- Claim C5: once an order is placed, the pipeline produces the
formatted trade report exactly when the provider status code is
zero; a non-zero status code or a transport error yields
OrderRejected carrying the provider message, and exactly one
place-order call is ever issued (never retried). -/
theorem c5_order_outcome :
    ∀ (env : Env) (raw : String) (sig : TradeSignal) (step : ℚ)
      (accounts : List WalletAccount) (snap : AccountSnapshot),
      parseSignal raw = some sig →
      env.stepSizeResult = .ok step →
      env.walletResult = .ok accounts →
      extractSnapshot accounts = .ok snap →
      0 < max_qty snap.walletBalance sig.price step →
      (∀ resp : OrderResponse, env.orderResult = .ok resp →
        (resp.retCode = 0 →
          handle_bot_response env raw =
            (.report (format_trade_details sig (max_qty snap.walletBalance sig.price step) resp snap),
              [.getStepSize sig.symbol, .getWalletBalance,
                .placeOrder sig.symbol (max_qty snap.walletBalance sig.price step)
                  sig.price sig.stopLoss sig.takeProfit])) ∧
        (resp.retCode ≠ 0 →
          handle_bot_response env raw =
            (.failed (.orderRejected resp.retMsg),
              [.getStepSize sig.symbol, .getWalletBalance,
                .placeOrder sig.symbol (max_qty snap.walletBalance sig.price step)
                  sig.price sig.stopLoss sig.takeProfit]))) ∧
      (∀ m : String, env.orderResult = .error m →
        handle_bot_response env raw =
          (.failed (.orderRejected m),
            [.getStepSize sig.symbol, .getWalletBalance,
              .placeOrder sig.symbol (max_qty snap.walletBalance sig.price step)
                sig.price sig.stopLoss sig.takeProfit])) ∧
      placeOrderCount (handle_bot_response env raw).2 = 1 := by
  intro env raw sig step accounts snap hparse hstep hwallet hsnap hq
  refine ⟨?_, ?_, ?_⟩
  · intro resp hresp
    constructor
    · intro hcode
      simp only [handle_bot_response, hparse, hstep, hwallet, hsnap]
      rw [if_pos hq, hresp]
      simp only
      rw [if_pos hcode]
    · intro hcode
      simp only [handle_bot_response, hparse, hstep, hwallet, hsnap]
      rw [if_pos hq, hresp]
      simp only
      rw [if_neg hcode]
  · intro m hresp
    simp only [handle_bot_response, hparse, hstep, hwallet, hsnap]
    rw [if_pos hq, hresp]
  · simp only [handle_bot_response, hparse, hstep, hwallet, hsnap]
    rw [if_pos hq]
    cases hresp : env.orderResult with
    | error m =>
      simp [placeOrderCount, isPlaceOrderCall]
    | ok resp =>
      by_cases hcode : resp.retCode = 0
      · simp [hcode, placeOrderCount, isPlaceOrderCall]
      · simp [hcode, placeOrderCount, isPlaceOrderCall]

/-- Witness for c5_order_outcome at the end-to-end scenario of the
spec: wallet 1000 USDT, price 50000, step 0.001, provider answers
with status code 0. -/
theorem c5_order_outcome_witness :
    parseSignal "Symbol: BTCUSDT\nPrice: 50000\nStop Loss: 49000\nTake Profit: 52000" =
      some ⟨"BTCUSDT", 50000, 49000, 52000⟩ ∧
    extractSnapshot [⟨.list [⟨"USDT", some 1000, some 1000⟩]⟩] = .ok ⟨1000, 1000⟩ ∧
    0 < max_qty 1000 50000 (mkRat 1 1000) ∧
    (0 : ℤ) = 0 ∧
    handle_bot_response
        (Env.mk (.ok (mkRat 1 1000)) (.ok [⟨.list [⟨"USDT", some 1000, some 1000⟩]⟩])
          (.ok ⟨0, "OK", "id1", 123⟩))
        "Symbol: BTCUSDT\nPrice: 50000\nStop Loss: 49000\nTake Profit: 52000" =
      (.report (format_trade_details ⟨"BTCUSDT", 50000, 49000, 52000⟩
          (max_qty 1000 50000 (mkRat 1 1000)) ⟨0, "OK", "id1", 123⟩ ⟨1000, 1000⟩),
        [.getStepSize "BTCUSDT", .getWalletBalance,
          .placeOrder "BTCUSDT" (max_qty 1000 50000 (mkRat 1 1000)) 50000 49000 52000]) := by
  have hq : 0 < max_qty 1000 50000 (mkRat 1 1000) := by
    have h20 : (1000 : ℚ) / 50000 / mkRat 1 1000 = ((20 : ℤ) : ℚ) := by
      rw [Rat.mkRat_eq_div]
      norm_num
    rw [max_qty, h20, Int.floor_intCast]
    have : (0 : ℚ) < mkRat 1 1000 := by decide
    positivity
  exact ⟨by decide, by decide, hq, rfl,
    ((c5_order_outcome
      (Env.mk (.ok (mkRat 1 1000)) (.ok [⟨.list [⟨"USDT", some 1000, some 1000⟩]⟩])
        (.ok ⟨0, "OK", "id1", 123⟩))
      "Symbol: BTCUSDT\nPrice: 50000\nStop Loss: 49000\nTake Profit: 52000"
      ⟨"BTCUSDT", 50000, 49000, 52000⟩ (mkRat 1 1000)
      [⟨.list [⟨"USDT", some 1000, some 1000⟩]⟩] ⟨1000, 1000⟩
      (by decide) rfl rfl (by decide) hq).1 ⟨0, "OK", "id1", 123⟩ rfl).1 rfl⟩

/-! ## Claim C6: wallet-shape equivalence -/

theorem findUsdtInList_eq_none_iff (cs : List CoinRecord) :
    findUsdtInList cs = none ↔ (cs.any fun c => c.coin = "USDT") = false := by
  induction cs with
  | nil => simp [findUsdtInList]
  | cons c rest ih =>
    by_cases h : c.coin = "USDT" <;> simp [findUsdtInList, h, ih]

theorem findUsdt_listify (accounts : List WalletAccount) :
    findUsdt (accounts.map listifyAccount) = findUsdt accounts := by
  induction accounts with
  | nil => rfl
  | cons a rest ih =>
    cases hc : a.coin with
    | single c =>
      by_cases h : c.coin = "USDT" <;>
        simp [listifyAccount, findUsdt, hc, findUsdtInList, h, ih]
    | list cs =>
      cases hf : findUsdtInList cs <;> simp [listifyAccount, findUsdt, hc, hf, ih]
    | absent => simp [listifyAccount, findUsdt, hc, ih]

theorem findUsdt_eq_none_iff (accounts : List WalletAccount) :
    findUsdt accounts = none ↔ containsUsdt accounts = false := by
  induction accounts with
  | nil => simp [findUsdt, containsUsdt]
  | cons a rest ih =>
    simp only [containsUsdt, List.any_cons] at ih ⊢
    cases hc : a.coin with
    | single c =>
      by_cases h : c.coin = "USDT" <;> simp [findUsdt, hc, h, ih]
    | list cs =>
      cases hf : findUsdtInList cs with
      | none =>
        have := (findUsdtInList_eq_none_iff cs).mp hf
        simp [findUsdt, hc, hf, ih, this]
      | some c =>
        have hne : ¬((cs.any fun c => c.coin = "USDT") = false) := by
          intro hfalse
          rw [(findUsdtInList_eq_none_iff cs).mpr hfalse] at hf
          cases hf
        simp [findUsdt, hc, hf, hne]
    | absent => simp [findUsdt, hc, ih]

/-- Claim C6: wallet-balance extraction yields the same result when
every single-object coin field is re-represented as a one-element
list (the two shapes handled by the isinstance branches), and a
response with no USDT entry in either representation is a hard
per-signal failure. -/
theorem c6_wallet_shape :
    (∀ accounts : List WalletAccount,
      extractSnapshot (accounts.map listifyAccount) = extractSnapshot accounts) ∧
    (∀ accounts : List WalletAccount, containsUsdt accounts = false →
      extractSnapshot accounts = .error .walletParseError) := by
  constructor
  · intro accounts
    unfold extractSnapshot
    have hemp : (accounts.map listifyAccount).isEmpty = accounts.isEmpty := by
      cases accounts <;> rfl
    rw [findUsdt_listify, hemp]
  · intro accounts h
    unfold extractSnapshot
    by_cases he : accounts.isEmpty = true
    · rw [if_pos he]
    · rw [if_neg he, (findUsdt_eq_none_iff accounts).mpr h]

/-- Witness for c6_wallet_shape: a wallet listing carrying only a BTC
entry (in single-object shape) has no USDT entry and fails. -/
theorem c6_wallet_shape_witness :
    containsUsdt [⟨.single ⟨"BTC", some 1, some 2⟩⟩] = false ∧
    extractSnapshot [⟨.single ⟨"BTC", some 1, some 2⟩⟩] = .error .walletParseError :=
  ⟨by decide, c6_wallet_shape.2 [⟨.single ⟨"BTC", some 1, some 2⟩⟩] (by decide)⟩

/-! ## Claim C8: per-message isolation -/

/-- Claim C8: handle_bot_response is a total function into outcome
values (the try/except wrapping of main.py:104/197 turns every
per-signal failure into a logged value), so the listener never
terminates early — every inbound message yields exactly one outcome
— and the outcome of each message is a function of that message and
its own exchange answers alone, unaffected by any earlier failing
message. -/
theorem c8_listener_isolation :
    ∀ (xs ys : List (Env × String)) (i : ℕ),
      runListener (xs ++ ys) = runListener xs ++ runListener ys ∧
      (runListener xs).length = xs.length ∧
      (runListener xs)[i]? = (xs[i]?).map fun pr => handle_bot_response pr.1 pr.2 := by
  intro xs ys i
  refine ⟨List.map_append _ xs ys, List.length_map xs _, ?_⟩
  simp [runListener]

/-! ## Claims C2 and C9: signal-parser rejection -/

theorem processPart_eq_none_iff (f : RawFields) (p : List Char) :
    processPart f p = none ↔ failingPart p = true := by
  unfold processPart failingPart
  cases h1 : startsWithL symbolLabel p with
  | true => simp [h1]
  | false =>
    cases h2 : startsWithL priceLabel p with
    | true => cases hv : parseFloat (labelValue priceLabel p) <;> simp [h1, h2, hv]
    | false =>
      cases h3 : startsWithL stopLossLabel p with
      | true => cases hv : parseFloat (labelValue stopLossLabel p) <;> simp [h1, h2, h3, hv]
      | false =>
        cases h4 : startsWithL takeProfitLabel p with
        | true =>
          cases hv : parseFloat (labelValue takeProfitLabel p) <;> simp [h1, h2, h3, h4, hv]
        | false => simp [h1, h2, h3, h4]

theorem processPart_fields (f f2 : RawFields) (p : List Char)
    (h : processPart f p = some f2) :
    (startsWithL symbolLabel p = false → f2.symbol = f.symbol) ∧
    (startsWithL priceLabel p = false → f2.price = f.price) ∧
    (startsWithL stopLossLabel p = false → f2.stopLoss = f.stopLoss) ∧
    (startsWithL takeProfitLabel p = false → f2.takeProfit = f.takeProfit) := by
  unfold processPart at h
  cases h1 : startsWithL symbolLabel p with
  | true =>
    simp only [h1, if_true, Option.some.injEq] at h
    subst h
    exact ⟨fun hf => by simp [h1] at hf, fun _ => rfl, fun _ => rfl, fun _ => rfl⟩
  | false =>
    simp only [h1, Bool.false_eq_true, if_false] at h
    cases h2 : startsWithL priceLabel p with
    | true =>
      simp only [h2, if_true] at h
      cases hv : parseFloat (labelValue priceLabel p) with
      | none => simp [hv] at h
      | some v =>
        simp only [hv, Option.some.injEq] at h
        subst h
        exact ⟨fun _ => rfl, fun hf => by simp [h2] at hf, fun _ => rfl, fun _ => rfl⟩
    | false =>
      simp only [h2, Bool.false_eq_true, if_false] at h
      cases h3 : startsWithL stopLossLabel p with
      | true =>
        simp only [h3, if_true] at h
        cases hv : parseFloat (labelValue stopLossLabel p) with
        | none => simp [hv] at h
        | some v =>
          simp only [hv, Option.some.injEq] at h
          subst h
          exact ⟨fun _ => rfl, fun _ => rfl, fun hf => by simp [h3] at hf, fun _ => rfl⟩
      | false =>
        simp only [h3, Bool.false_eq_true, if_false] at h
        cases h4 : startsWithL takeProfitLabel p with
        | true =>
          simp only [h4, if_true] at h
          cases hv : parseFloat (labelValue takeProfitLabel p) with
          | none => simp [hv] at h
          | some v =>
            simp only [hv, Option.some.injEq] at h
            subst h
            exact ⟨fun _ => rfl, fun _ => rfl, fun _ => rfl, fun hf => by simp [h4] at hf⟩
        | false =>
          simp only [h4, Bool.false_eq_true, if_false, Option.some.injEq] at h
          subst h
          exact ⟨fun _ => rfl, fun _ => rfl, fun _ => rfl, fun _ => rfl⟩

theorem processParts_none_of_failing :
    ∀ (parts : List (List Char)) (f : RawFields),
      (∃ p ∈ parts, failingPart p = true) → processParts f parts = none := by
  intro parts
  induction parts with
  | nil =>
    intro f h
    rcases h with ⟨p, hp, _⟩
    cases hp
  | cons q rest ih =>
    intro f h
    rcases h with ⟨p, hp, hfail⟩
    rcases List.mem_cons.mp hp with rfl | hmem
    · have hq : processPart f p = none := (processPart_eq_none_iff f p).mpr hfail
      simp [processParts, hq]
    · cases hq : processPart f q with
      | none => simp [processParts, hq]
      | some f1 =>
        simp only [processParts, hq]
        exact ih f1 ⟨p, hmem, hfail⟩

theorem processParts_fields :
    ∀ (parts : List (List Char)) (f f2 : RawFields),
      processParts f parts = some f2 →
      ((∀ p ∈ parts, startsWithL symbolLabel p = false) → f2.symbol = f.symbol) ∧
      ((∀ p ∈ parts, startsWithL priceLabel p = false) → f2.price = f.price) ∧
      ((∀ p ∈ parts, startsWithL stopLossLabel p = false) → f2.stopLoss = f.stopLoss) ∧
      ((∀ p ∈ parts, startsWithL takeProfitLabel p = false) → f2.takeProfit = f.takeProfit) := by
  intro parts
  induction parts with
  | nil =>
    intro f f2 h
    simp only [processParts, Option.some.injEq] at h
    subst h
    exact ⟨fun _ => rfl, fun _ => rfl, fun _ => rfl, fun _ => rfl⟩
  | cons q rest ih =>
    intro f f2 h
    cases hq : processPart f q with
    | none => simp [processParts, hq] at h
    | some f1 =>
      simp only [processParts, hq] at h
      have hrest := ih f1 f2 h
      have hone := processPart_fields f f1 q hq
      refine ⟨fun hm => ?_, fun hm => ?_, fun hm => ?_, fun hm => ?_⟩
      · rw [hrest.1 fun p hp => hm p (List.mem_cons_of_mem q hp),
          hone.1 (hm q (List.mem_cons_self q rest))]
      · rw [hrest.2.1 fun p hp => hm p (List.mem_cons_of_mem q hp),
          hone.2.1 (hm q (List.mem_cons_self q rest))]
      · rw [hrest.2.2.1 fun p hp => hm p (List.mem_cons_of_mem q hp),
          hone.2.2.1 (hm q (List.mem_cons_self q rest))]
      · rw [hrest.2.2.2 fun p hp => hm p (List.mem_cons_of_mem q hp),
          hone.2.2.2 (hm q (List.mem_cons_self q rest))]

theorem parseSignal_eq_none_of_field_none (raw : String) (f : RawFields)
    (hpp : processParts initFields (msgParts raw) = some f)
    (h : f.symbol = none ∨ f.price = none ∨ f.stopLoss = none ∨ f.takeProfit = none) :
    parseSignal raw = none := by
  simp only [parseSignal, hpp]
  rcases h with h | h | h | h
  · rw [h]
  · cases hs : f.symbol <;> rw [h]
  · cases hs : f.symbol <;> cases hp : f.price <;> rw [h]
  · cases hs : f.symbol <;> cases hp : f.price <;> cases hl : f.stopLoss <;> rw [h]

/-- Claim C2: a message with one of the four labelled lines missing,
or with a numeric line whose value is not a decimal literal, is
rejected as a malformed signal and the handler makes no exchange
call at all. -/
theorem c2_malformed_rejected :
    ∀ (env : Env) (raw : String), malformedInput raw = true →
      parseSignal raw = none ∧
      handle_bot_response env raw = (.failed .malformedSignal, []) := by
  intro env raw h
  have hparse : parseSignal raw = none := by
    unfold malformedInput at h
    simp only [Bool.or_eq_true, Bool.not_eq_true'] at h
    have hlabel : ∀ label : List Char, hasLabel (msgParts raw) label = false →
        ∀ p ∈ msgParts raw, startsWithL label p = false := by
      intro label hl p hp
      unfold hasLabel at hl
      rw [List.any_eq_false] at hl
      simpa using hl p hp
    rcases h with ((((h | h) | h) | h) | h)
    · cases hpp : processParts initFields (msgParts raw) with
      | none => simp [parseSignal, hpp]
      | some f =>
        have hfield : f.symbol = none :=
          ((processParts_fields (msgParts raw) initFields f hpp).1
            (hlabel symbolLabel h)).trans rfl
        exact parseSignal_eq_none_of_field_none raw f hpp (Or.inl hfield)
    · cases hpp : processParts initFields (msgParts raw) with
      | none => simp [parseSignal, hpp]
      | some f =>
        have hfield : f.price = none :=
          ((processParts_fields (msgParts raw) initFields f hpp).2.1
            (hlabel priceLabel h)).trans rfl
        exact parseSignal_eq_none_of_field_none raw f hpp (Or.inr (Or.inl hfield))
    · cases hpp : processParts initFields (msgParts raw) with
      | none => simp [parseSignal, hpp]
      | some f =>
        have hfield : f.stopLoss = none :=
          ((processParts_fields (msgParts raw) initFields f hpp).2.2.1
            (hlabel stopLossLabel h)).trans rfl
        exact parseSignal_eq_none_of_field_none raw f hpp (Or.inr (Or.inr (Or.inl hfield)))
    · cases hpp : processParts initFields (msgParts raw) with
      | none => simp [parseSignal, hpp]
      | some f =>
        have hfield : f.takeProfit = none :=
          ((processParts_fields (msgParts raw) initFields f hpp).2.2.2
            (hlabel takeProfitLabel h)).trans rfl
        exact parseSignal_eq_none_of_field_none raw f hpp (Or.inr (Or.inr (Or.inr hfield)))
    · rcases List.any_eq_true.mp h with ⟨p, hp, hfail⟩
      have hnone := processParts_none_of_failing (msgParts raw) initFields ⟨p, hp, hfail⟩
      simp [parseSignal, hnone]
  exact ⟨hparse, by simp only [handle_bot_response, hparse]⟩

/-- Witness for c2_malformed_rejected: scenario 3 of the spec, a
message missing its Take Profit line. -/
theorem c2_malformed_rejected_witness :
    malformedInput "Symbol: BTCUSDT\nPrice: 50000\nStop Loss: 49000" = true ∧
    (parseSignal "Symbol: BTCUSDT\nPrice: 50000\nStop Loss: 49000" = none ∧
      handle_bot_response (Env.mk (.ok 1) (.ok []) (.ok ⟨0, "", "", 0⟩))
        "Symbol: BTCUSDT\nPrice: 50000\nStop Loss: 49000" =
        (.failed .malformedSignal, [])) :=
  ⟨by decide, c2_malformed_rejected (Env.mk (.ok 1) (.ok []) (.ok ⟨0, "", "", 0⟩))
    "Symbol: BTCUSDT\nPrice: 50000\nStop Loss: 49000" (by decide)⟩

/-- Claim C9: a message carrying all four labelled lines is still
rejected as malformed — with no exchange call — when a numeric field
parses to exactly 0 or the symbol value is the empty string, because
the truthiness check of main.py:118 treats 0.0 and "" as absent. -/
theorem c9_falsy_fields_rejected :
    ∀ (env : Env) (raw : String) (f : RawFields),
      processParts initFields (msgParts raw) = some f →
      f.symbol ≠ none → f.price ≠ none → f.stopLoss ≠ none → f.takeProfit ≠ none →
      (f.symbol = some [] ∨ f.price = some 0 ∨ f.stopLoss = some 0 ∨ f.takeProfit = some 0) →
      parseSignal raw = none ∧
      handle_bot_response env raw = (.failed .malformedSignal, []) := by
  intro env raw f hpp hs hp hsl htp hdisj
  obtain ⟨s, hsym⟩ := Option.ne_none_iff_exists'.mp hs
  obtain ⟨pv, hpr⟩ := Option.ne_none_iff_exists'.mp hp
  obtain ⟨slv, hslv⟩ := Option.ne_none_iff_exists'.mp hsl
  obtain ⟨tpv, htpv⟩ := Option.ne_none_iff_exists'.mp htp
  have hparse : parseSignal raw = none := by
    simp only [parseSignal, hpp, hsym, hpr, hslv, htpv]
    rcases hdisj with hd | hd | hd | hd
    · rw [hsym] at hd
      injection hd with hd
      subst hd
      simp
    · rw [hpr] at hd
      injection hd with hd
      subst hd
      simp
    · rw [hslv] at hd
      injection hd with hd
      subst hd
      simp
    · rw [htpv] at hd
      injection hd with hd
      subst hd
      simp
  exact ⟨hparse, by simp only [handle_bot_response, hparse]⟩

/-- Witness for c9_falsy_fields_rejected: all four lines present but
the price line reads "Price: 0". -/
theorem c9_falsy_fields_rejected_witness :
    processParts initFields
        (msgParts "Symbol: BTCUSDT\nPrice: 0\nStop Loss: 49000\nTake Profit: 52000") =
      some ⟨some "BTCUSDT".toList, some 0, some 49000, some 52000⟩ ∧
    (parseSignal "Symbol: BTCUSDT\nPrice: 0\nStop Loss: 49000\nTake Profit: 52000" = none ∧
      handle_bot_response (Env.mk (.ok 1) (.ok []) (.ok ⟨0, "", "", 0⟩))
        "Symbol: BTCUSDT\nPrice: 0\nStop Loss: 49000\nTake Profit: 52000" =
        (.failed .malformedSignal, [])) :=
  ⟨by decide,
    c9_falsy_fields_rejected (Env.mk (.ok 1) (.ok []) (.ok ⟨0, "", "", 0⟩))
      "Symbol: BTCUSDT\nPrice: 0\nStop Loss: 49000\nTake Profit: 52000"
      ⟨some "BTCUSDT".toList, some 0, some 49000, some 52000⟩
      (by decide) (by decide) (by decide) (by decide) (by decide)
      (Or.inr (Or.inl rfl))⟩

/-! ## Claim C3: OTP acceptance -/

/-- Claim C3, counterexample: receive_otp checks only the request
body, never the auth state. In the initial state — where the auth
session is not in AwaitingOtp — a delivered OTP is still accepted
with HTTP 200 and the wake flag is set. -/
theorem c3_counterexample :
    initState.phase ≠ AuthPhase.awaitingOtp ∧
    (receive_otp initState (.jsonWithOtp "123456")).2 = .accepted "123456" ∧
    (receive_otp initState (.jsonWithOtp "123456")).1.login_event = true :=
  ⟨by decide, rfl, rfl⟩

/-- Claim C3 (amended): acceptance of a submitted OTP depends only on
the request body, not on the auth state — any body carrying an otp
key is accepted in every state, setting the single-slot mailbox and
the wake flag, and a body without one is rejected; a non-empty value
present when the login waiter wakes leads to exactly one sign-in
attempt. -/
theorem c3_otp_acceptance :
    ∀ (st : ProcState) (v : String) (env : LoginEnv),
      receive_otp st (.jsonWithOtp v) =
        ({ st with otp_received := some v, login_event := true }, .accepted v) ∧
      receive_otp st .noJson = (st, .badRequest) ∧
      receive_otp st .jsonWithoutOtp = (st, .badRequest) ∧
      (v ≠ "" →
        signInCount
          (loginAfterWait { st with otp_received := some v, login_event := true } env).2.2 = 1) := by
  intro st v env
  refine ⟨rfl, rfl, rfl, fun hv => ?_⟩
  simp only [loginAfterWait]
  rw [if_neg hv]
  cases env.signInResult <;> simp [signInCount, isSignInCall]

/-- Witness for c3_otp_acceptance at the initial state with OTP
"123456". -/
theorem c3_otp_acceptance_witness :
    ("123456" : String) ≠ "" ∧
    signInCount
      (loginAfterWait { initState with otp_received := some "123456", login_event := true }
        ⟨false, false, .success, .success, []⟩).2.2 = 1 :=
  ⟨by decide,
    (c3_otp_acceptance initState "123456" ⟨false, false, .success, .success, []⟩).2.2.2
      (by decide)⟩

/-! ## Claim C7: code-request idempotence -/

/-- Claim C7, counterexample: the idempotence flag is set only after
a successful send, so if the first code request fails and the login
flow re-enters the unauthenticated branch, a second code request is
issued: two runs whose send fails produce two send_code_request
calls. -/
theorem c7_counterexample :
    sendCount (loginRuns initState
      [⟨false, false, .otherError, .success, []⟩,
        ⟨false, false, .otherError, .success, []⟩]).2 = 2 ∧
    ¬sendCount (loginRuns initState
      [⟨false, false, .otherError, .success, []⟩,
        ⟨false, false, .otherError, .success, []⟩]).2 ≤ 1 :=
  ⟨by decide, by decide⟩

theorem processDeliveries_flag (ds : List RequestBody) :
    ∀ st : ProcState, (processDeliveries st ds).otp_request_sent = st.otp_request_sent := by
  induction ds with
  | nil => intro st; rfl
  | cons d rest ih =>
    intro st
    have hone : ((receive_otp st d).1).otp_request_sent = st.otp_request_sent := by
      cases d <;> rfl
    calc (processDeliveries st (d :: rest)).otp_request_sent
        = (processDeliveries (receive_otp st d).1 rest).otp_request_sent := rfl
      _ = ((receive_otp st d).1).otp_request_sent := ih _
      _ = st.otp_request_sent := hone

theorem loginAfterWait_flag (st : ProcState) (env : LoginEnv) :
    (loginAfterWait st env).1.otp_request_sent = st.otp_request_sent := by
  cases ho : st.otp_received with
  | none => simp [loginAfterWait, ho]
  | some code =>
    by_cases hc : code = ""
    · simp [loginAfterWait, ho, hc]
    · simp only [loginAfterWait, ho]
      rw [if_neg hc]
      cases env.signInResult <;> rfl

theorem loginAfterWait_no_send (st : ProcState) (env : LoginEnv) :
    sendCount (loginAfterWait st env).2.2 = 0 := by
  cases ho : st.otp_received with
  | none => simp [loginAfterWait, ho, sendCount]
  | some code =>
    by_cases hc : code = ""
    · simp [loginAfterWait, ho, hc, sendCount]
    · simp only [loginAfterWait, ho]
      rw [if_neg hc]
      cases env.signInResult <;> simp [sendCount, isSendCall]

theorem telegram_login_flag_true (st : ProcState) (env : LoginEnv)
    (hflag : st.otp_request_sent = true) :
    sendCount (telegram_login st env).2.2 = 0 ∧
    (telegram_login st env).1.otp_request_sent = true := by
  unfold telegram_login
  cases hce : env.connectError with
  | true => simpa [hce, sendCount] using hflag
  | false =>
    cases hau : env.isAuthorized with
    | true => simpa [hce, hau, sendCount] using hflag
    | false =>
      simp only [hce, hau, Bool.false_eq_true, if_false, hflag, if_true]
      cases hev : (processDeliveries { st with otp_request_sent := true, phase := .awaitingOtp }
          env.waitDeliveries).login_event with
      | false =>
        simp only [hev, Bool.false_eq_true, if_false]
        refine ⟨rfl, ?_⟩
        rw [processDeliveries_flag]
      | true =>
        simp only [hev, if_true]
        refine ⟨loginAfterWait_no_send _ _, ?_⟩
        rw [loginAfterWait_flag, processDeliveries_flag]

theorem loginAfterWait_no_succ_send (st : ProcState) (env : LoginEnv) :
    succSendCount (loginAfterWait st env).2.2 = 0 := by
  cases ho : st.otp_received with
  | none => simp [loginAfterWait, ho, succSendCount]
  | some code =>
    by_cases hc : code = ""
    · simp [loginAfterWait, ho, hc, succSendCount]
    · simp only [loginAfterWait, ho]
      rw [if_neg hc]
      cases env.signInResult <;> simp [succSendCount, isSuccessfulSendCall]

theorem telegram_login_flag_false (st : ProcState) (env : LoginEnv)
    (hflag : st.otp_request_sent = false) :
    succSendCount (telegram_login st env).2.2 =
      (if (telegram_login st env).1.otp_request_sent then 1 else 0) := by
  unfold telegram_login
  cases hce : env.connectError with
  | true => simp [hflag, succSendCount]
  | false =>
    cases hau : env.isAuthorized with
    | true => simp [hflag, succSendCount]
    | false =>
      simp only [Bool.false_eq_true, if_false, hflag]
      cases hsc : env.sendCodeResult with
      | floodWait => simp [hflag, succSendCount, isSuccessfulSendCall]
      | otherError => simp [hflag, succSendCount, isSuccessfulSendCall]
      | success =>
        simp only
        cases hev : (processDeliveries { st with otp_request_sent := true, phase := .awaitingOtp }
            env.waitDeliveries).login_event with
        | false =>
          simp only [hev, Bool.false_eq_true, if_false]
          rw [processDeliveries_flag]
          simp [succSendCount, isSuccessfulSendCall]
        | true =>
          simp only [hev, if_true]
          rw [loginAfterWait_flag, processDeliveries_flag]
          simp [succSendCount, isSuccessfulSendCall]
          have := loginAfterWait_no_succ_send
            (processDeliveries { st with otp_request_sent := true, phase := .awaitingOtp }
              env.waitDeliveries) env
          simpa [succSendCount] using this

theorem succSendCount_le_sendCount (calls : List TgCall) :
    succSendCount calls ≤ sendCount calls := by
  induction calls with
  | nil => exact Nat.le_refl 0
  | cons c rest ih =>
    unfold succSendCount sendCount at ih ⊢
    rw [List.countP_cons, List.countP_cons]
    cases c with
    | sendCodeRequest ok =>
      cases ok <;> simp [isSendCall, isSuccessfulSendCall] <;> omega
    | signIn code =>
      simp only [isSendCall, isSuccessfulSendCall, Bool.false_eq_true, if_false]
      omega

theorem loginRuns_no_send_of_flag (envs : List LoginEnv) :
    ∀ st : ProcState, st.otp_request_sent = true →
      sendCount (loginRuns st envs).2 = 0 ∧ (loginRuns st envs).1.otp_request_sent = true := by
  induction envs with
  | nil => intro st hflag; exact ⟨rfl, hflag⟩
  | cons e rest ih =>
    intro st hflag
    have hrun := telegram_login_flag_true st e hflag
    have hnext := ih (telegram_login st e).1 hrun.2
    constructor
    · show sendCount ((telegram_login st e).2.2 ++ (loginRuns (telegram_login st e).1 rest).2) = 0
      unfold sendCount at hrun hnext ⊢
      rw [List.countP_append, hrun.1, hnext.1]
    · exact hnext.2

theorem loginRuns_succ_send_le_one (envs : List LoginEnv) :
    ∀ st : ProcState, st.otp_request_sent = false →
      succSendCount (loginRuns st envs).2 ≤ 1 := by
  induction envs with
  | nil => intro st _; exact Nat.zero_le 1
  | cons e rest ih =>
    intro st hflag
    have hrun := telegram_login_flag_false st e hflag
    have hsplit : succSendCount (loginRuns st (e :: rest)).2 =
        succSendCount (telegram_login st e).2.2 +
          succSendCount (loginRuns (telegram_login st e).1 rest).2 := by
      show succSendCount ((telegram_login st e).2.2 ++ (loginRuns (telegram_login st e).1 rest).2) = _
      unfold succSendCount
      rw [List.countP_append]
    rw [hsplit, hrun]
    cases hflag2 : (telegram_login st e).1.otp_request_sent with
    | false =>
      simp only [Bool.false_eq_true, if_false, Nat.zero_add]
      exact ih _ hflag2
    | true =>
      simp only [if_true]
      have hzero : succSendCount (loginRuns (telegram_login st e).1 rest).2 = 0 := by
        have hle := succSendCount_le_sendCount (loginRuns (telegram_login st e).1 rest).2
        have := (loginRuns_no_send_of_flag rest (telegram_login st e).1 hflag2).1
        omega
      omega

/-- Claim C7 (amended): the session never issues more than one
successful code request per process lifetime: the flag set after the
first successful send prevents any further request attempt, so only
re-entry after a failed send can issue another request (and the
actual program runs telegram_login exactly once anyway). -/
theorem c7_code_request_idempotence :
    (∀ envs : List LoginEnv, succSendCount (loginRuns initState envs).2 ≤ 1) ∧
    (∀ (st : ProcState) (envs : List LoginEnv), st.otp_request_sent = true →
      sendCount (loginRuns st envs).2 = 0) := by
  constructor
  · intro envs
    exact loginRuns_succ_send_le_one envs initState rfl
  · intro st envs hflag
    exact (loginRuns_no_send_of_flag envs st hflag).1

/-- Witness for c7_code_request_idempotence: a two-run lifetime where
the first run sends successfully; the successful-send count is at
most one and a flagged state issues no request at all. -/
theorem c7_code_request_idempotence_witness :
    succSendCount (loginRuns initState
      [⟨false, false, .success, .success, [.jsonWithOtp "1"]⟩,
        ⟨false, false, .success, .success, [.jsonWithOtp "1"]⟩]).2 ≤ 1 ∧
    ({ initState with otp_request_sent := true } : ProcState).otp_request_sent = true ∧
    sendCount (loginRuns { initState with otp_request_sent := true }
      [⟨false, false, .success, .success, [.jsonWithOtp "1"]⟩]).2 = 0 :=
  ⟨c7_code_request_idempotence.1
      [⟨false, false, .success, .success, [.jsonWithOtp "1"]⟩,
        ⟨false, false, .success, .success, [.jsonWithOtp "1"]⟩],
    rfl,
    c7_code_request_idempotence.2 { initState with otp_request_sent := true }
      [⟨false, false, .success, .success, [.jsonWithOtp "1"]⟩] rfl⟩

/-! ## Claim C10: empty-string OTP -/

/-- Claim C10: an empty-string OTP posted to /otp is reported as
accepted (HTTP 200) and sets the wake flag, but the login routine
then sees a falsy pending OTP, never attempts sign-in (no signIn
call in its trace, whatever the sign-in environment would answer),
and returns the permanent failure "OTP not received". -/
theorem c10_empty_otp :
    ∀ signRes : SignInResult,
      (receive_otp initState (.jsonWithOtp "")).2 = .accepted "" ∧
      (receive_otp initState (.jsonWithOtp "")).1.login_event = true ∧
      telegram_login initState ⟨false, false, .success, signRes, [.jsonWithOtp ""]⟩ =
        (⟨some "", true, true, .permanentlyFailed⟩, .failed "OTP not received",
          [.sendCodeRequest true]) := by
  intro signRes
  exact ⟨rfl, rfl, rfl⟩

end Relay
